import Mathlib

/-
Verification of the ILI9488 3-line SPI display drivers.

Shallow embedding of the two C source files:
  src/ili9488-minimal.c  (3-bit color driver, 8-bit SPI emulating 9-bit words)
  src/ili9488.c          (RGB565 driver, native 9-bit SPI words)

The transport (spi_sync / spi_write), delays (msleep), the reset GPIO and
the mutex are external collaborators.  They are modelled by an event trace:
each transport call appends one Ev.snd event carrying the logical
(is_data, payload) words of that call together with a success flag; msleep
and the reset GPIO append sleep and gpioReset events; mutex_lock and
mutex_unlock append lock and unlock events.  Transport results are driven
by an oracle err : Nat -> Int indexed by the number of transport calls made
so far (0 means success, as in the kernel).  The byte-level framing of each
9-bit word is factored into the pure functions tx_bytes (minimal driver)
and ili9488_pack9 (RGB driver), proved correct separately.
-/

set_option maxRecDepth 8192

namespace ILI9488

/-- Trace events: transport sends (logical words plus success flag), delays,
reset-GPIO writes, and mutex operations. -/
inductive Ev where
  | snd (ws : List (Bool × Nat)) (ok : Bool)
  | sleep (ms : Nat)
  | gpioReset (v : Nat)
  | lock
  | unlock
deriving DecidableEq

/-- Device-session state threaded through the embedded code: the number of
transport calls made so far, and the chronological event trace. -/
structure St where
  k : Nat
  evs : List Ev
deriving DecidableEq

/-- Transport oracle: result of the n-th transport call (0 = success). -/
abbrev Err := Nat → Int

/-- Oracle for a transport on which every call succeeds. -/
def allOk : Err := fun _ => 0

/-- Oracle for a transport on which every call fails with -5 (-EIO). -/
def errFail : Err := fun _ => -5

/-- Words successfully delivered to the transport, in order. -/
def wordsSent : List Ev → List (Bool × Nat)
  | [] => []
  | Ev.snd ws true :: rest => ws ++ wordsSent rest
  | _ :: rest => wordsSent rest

namespace M3

/- Embedding of src/ili9488-minimal.c. -/

/-- Byte packing computed by ili9488_send_9bit (src/ili9488-minimal.c
lines 53-54): tx_buf[0] = (dc << 7) | (data >> 1) and
tx_buf[1] = (data & 0x01) << 7, for a u8 data argument. -/
def tx_bytes (dc : Bool) (data : Nat) : Nat × Nat :=
  (((cond dc 1 0) <<< 7) ||| ((data % 256) >>> 1), ((data % 256) &&& 0x01) <<< 7)

/-- One ili9488_send_9bit call: consult the transport oracle, record the
logical (dc, data) word with the call result, and return spi_sync result. -/
def send9 (err : Err) (dc : Bool) (data : Nat) (s : St) : Int × St :=
  let r := err s.k
  (r, ⟨s.k + 1, s.evs ++ [Ev.snd [(dc, data % 256)] (decide (r = 0))]⟩)

/-- Straight-line sequence of send calls aborting on the first error.  The
body of ili9488_fill_color_3bit before the pixel loop (src/ili9488-minimal.c
lines 167-183) is such a sequence with a goto out after each failure. -/
def sendSeq (err : Err) : List (Bool × Nat) → St → Int × St
  | [], s => (0, s)
  | w :: ws, s =>
    let p := send9 err w.1 w.2 s
    if p.1 = 0 then sendSeq err ws p.2 else p

/-- Window and memory-write words emitted before the pixel stream of
ili9488_fill_color_3bit: CASET with the four bytes of 0..319, PASET with
the four bytes of 0..479, then RAMWR. -/
def hdrWords : List (Bool × Nat) :=
  [(false, 0x2A), (true, 0x00), (true, 0x00), (true, 0x01), (true, 0x3F),
   (false, 0x2B), (true, 0x00), (true, 0x00), (true, 0x01), (true, 0xDF),
   (false, 0x2C)]

/-- Pixel loop of ili9488_fill_color_3bit (src/ili9488-minimal.c lines
186-194): one data word per remaining pixel, breaking on the first
transport error. -/
def pixLoop (err : Err) (color : Nat) : Nat → St → Int × St
  | 0, s => (0, s)
  | n + 1, s =>
    let p := send9 err true color s
    if p.1 = 0 then pixLoop err color n p.2 else p

/-- The out label of ili9488_fill_color_3bit (lines 196-198): the cached
current_color is set to the new color only when ret is zero. -/
def out (r : Int) (s : St) (cur color : Nat) : Int × St × Nat :=
  if r = 0 then (r, s, color) else (r, s, cur)

/-- ili9488_fill_color_3bit (src/ili9488-minimal.c lines 158-206): set the
full-screen window, start memory write, stream 320 * 480 data words, abort
on the first transport error, and update current_color only on success.
The triple returned is (ret, state, current_color afterwards). -/
def ili9488_fill_color_3bit (err : Err) (color cur : Nat) (s : St) :
    Int × St × Nat :=
  let p := sendSeq err hdrWords s
  if p.1 = 0 then
    let q := pixLoop err color (320 * 480) p.2
    out q.1 q.2 cur color
  else
    out p.1 p.2 cur color

end M3

namespace L9

/- Embedding of src/ili9488.c. -/

/-- Pack 9-bit word (src/ili9488.c lines 47-50):
((is_data ? 1 : 0) << 8) | (data & 0xFF).  cpu_to_le16 is a byte-order
identity on the 16-bit value and is modelled as the identity. -/
def ili9488_pack9 (data : Nat) (is_data : Bool) : Nat :=
  ((cond is_data 1 0) <<< 8) ||| (data &&& 0xFF)

end L9

/-- Decoder for the native 9-bit encoding: bit 8 is the command/data flag,
bits 7..0 the payload. -/
def decodeNative (w : Nat) : Bool × Nat :=
  (((w >>> 8) &&& 1) == 1, w &&& 0xFF)

/-- Decoder for the two-byte emulated encoding: the flag is the top bit of
byte 0, the payload is the low 7 bits of byte 0 followed by the top bit of
byte 1. -/
def decodeEmulated (b : Nat × Nat) : Bool × Nat :=
  (((b.1 >>> 7) &&& 1) == 1, ((b.1 &&& 0x7F) <<< 1) ||| ((b.2 >>> 7) &&& 1))

/-- Wire word demanded by the spec for native 9-bit mode: the is_data flag
in bit 8 and the payload in bits 7..0, written here arithmetically. -/
def wireWordSpec (d : Bool) (p : Nat) : Nat :=
  (cond d 1 0) * 256 + p

/-- Byte pair demanded by the spec for 8-bit-emulated mode, written here
arithmetically: byte0 carries the flag and the 7 high payload bits, byte1
carries the lowest payload bit in its top position. -/
def emuBytesSpec (d : Bool) (p : Nat) : Nat × Nat :=
  ((cond d 1 0) * 128 + p / 2, (p % 2) * 128)

/-- An msleep call, recorded as a sleep event. -/
def msleep (n : Nat) (s : St) : St :=
  ⟨s.k, s.evs ++ [Ev.sleep n]⟩

namespace M3

/-- ili9488_cmd of the minimal driver: a send with the D/C flag clear. -/
def ili9488_cmd (err : Err) (c : Nat) (s : St) : Int × St :=
  send9 err false c s

/-- ili9488_data of the minimal driver: a send with the D/C flag set. -/
def ili9488_data (err : Err) (d : Nat) (s : St) : Int × St :=
  send9 err true d s

/-- ili9488_hardware_reset (src/ili9488-minimal.c lines 96-110): when a
reset GPIO is present, drive it low, sleep 20, drive it high, sleep 120. -/
def ili9488_hardware_reset (hasReset : Bool) (s : St) : St :=
  if hasReset then
    ⟨s.k, s.evs ++ [Ev.gpioReset 0, Ev.sleep 20, Ev.gpioReset 1, Ev.sleep 120]⟩
  else s

/-- ili9488_3bit_init (src/ili9488-minimal.c lines 113-153): hardware
reset, then SWRESET, SLEEP OUT, COLMOD with one data byte, MADCTL with one
data byte, inversion on, NORON, DISPON, each followed by an msleep.  The C
function is void and never looks at the return value of any send. -/
def ili9488_3bit_init (err : Err) (hasReset : Bool) (s : St) : St :=
  let s := ili9488_hardware_reset hasReset s
  let s := (ili9488_cmd err 0x01 s).2
  let s := msleep 150 s
  let s := (ili9488_cmd err 0x11 s).2
  let s := msleep 120 s
  let s := (ili9488_cmd err 0x3A s).2
  let s := (ili9488_data err 0x01 s).2
  let s := msleep 10 s
  let s := (ili9488_cmd err 0x36 s).2
  let s := (ili9488_data err 0x48 s).2
  let s := msleep 10 s
  let s := (ili9488_cmd err 0x21 s).2
  let s := msleep 10 s
  let s := (ili9488_cmd err 0x13 s).2
  let s := msleep 10 s
  let s := (ili9488_cmd err 0x29 s).2
  let s := msleep 50 s
  s

/-- ASCII lowercase conversion used by strncasecmp. -/
def tolowerC (c : Char) : Char :=
  if 'A' ≤ c ∧ c ≤ 'Z' then Char.ofNat (c.toNat + 32) else c

/-- Modelled from the C library: strncasecmp(s1, s2, n) == 0, for strings
holding no NUL characters.  Comparison stops after n characters or at the
end of both strings; reaching the end of only one string is a mismatch
because the terminating NUL differs from the other character. -/
def strncaseeq : List Char → List Char → Nat → Bool
  | _, _, 0 => true
  | [], [], _ + 1 => true
  | [], _ :: _, _ + 1 => false
  | _ :: _, [], _ + 1 => false
  | a :: as, b :: bs, n + 1 => (tolowerC a == tolowerC b) && strncaseeq as bs n

def blackName : List Char := ['b', 'l', 'a', 'c', 'k']

def blueName : List Char := ['b', 'l', 'u', 'e']

def greenName : List Char := ['g', 'r', 'e', 'e', 'n']

def cyanName : List Char := ['c', 'y', 'a', 'n']

def redName : List Char := ['r', 'e', 'd']

def magentaName : List Char := ['m', 'a', 'g', 'e', 'n', 't', 'a']

def yellowName : List Char := ['y', 'e', 'l', 'l', 'o', 'w']

def whiteName : List Char := ['w', 'h', 'i', 't', 'e']

/-- name_to_color (src/ili9488-minimal.c lines 211-226): an empty input is
-EINVAL; otherwise the names are tried in the fixed order black, blue,
green, cyan, red, magenta, yellow, white with strncasecmp over the input
length, and a miss on all of them is -ENOENT. -/
def name_to_color (s : List Char) : Except Int Nat :=
  if s.length = 0 then Except.error (-22)
  else if strncaseeq s blackName s.length then Except.ok 0
  else if strncaseeq s blueName s.length then Except.ok 1
  else if strncaseeq s greenName s.length then Except.ok 2
  else if strncaseeq s cyanName s.length then Except.ok 3
  else if strncaseeq s redName s.length then Except.ok 4
  else if strncaseeq s magentaName s.length then Except.ok 5
  else if strncaseeq s yellowName s.length then Except.ok 6
  else if strncaseeq s whiteName s.length then Except.ok 7
  else Except.error (-2)

/-- Value of one character as a digit in the given base. -/
def digitVal (base : Nat) (c : Char) : Option Nat :=
  let v :=
    if '0' ≤ c ∧ c ≤ '9' then some (c.toNat - 48)
    else if 'a' ≤ c ∧ c ≤ 'f' then some (c.toNat - 87)
    else if 'A' ≤ c ∧ c ≤ 'F' then some (c.toNat - 55)
    else none
  match v with
  | some d => if d < base then some d else none
  | none => none

def parseDigitsAux (base : Nat) : List Char → Nat → Option Nat
  | [], acc => some acc
  | c :: r, acc =>
    match digitVal base c with
    | some d => parseDigitsAux base r (acc * base + d)
    | none => none

/-- Parse a nonempty run of digits in the given base; anything else is a
parse failure. -/
def parseDigits (base : Nat) : List Char → Option Nat
  | [] => none
  | l => parseDigitsAux base l 0

/-- Drop one trailing newline if present, as the kernel parser allows. -/
def stripNewline (s : List Char) : List Char :=
  match s.reverse with
  | c :: r => if c = Char.ofNat 10 then r.reverse else s
  | [] => s

/-- Modelled from the C library: kstrtoul with base 0.  An optional leading
plus sign, then a 0x or 0X prefix selects base 16, a leading zero with more
digits selects base 8, otherwise base 10; one trailing newline is allowed;
any other character makes the parse fail. -/
def kstrtoul (s : List Char) : Option Nat :=
  let s1 := stripNewline s
  let s2 := match s1 with
    | '+' :: r => r
    | r => r
  match s2 with
  | '0' :: 'x' :: r => parseDigits 16 r
  | '0' :: 'X' :: r => parseDigits 16 r
  | '0' :: [] => some 0
  | '0' :: r => parseDigits 8 r
  | r => parseDigits 10 r

/-- Validation phase of ili9488_color_store (src/ili9488-minimal.c lines
239-249): a numeric parse above 7 is -EINVAL, a failed numeric parse falls
back to name_to_color whose failure is also reported as -EINVAL. -/
def parse_color (buf : List Char) : Except Int Nat :=
  match kstrtoul buf with
  | some v => if 7 < v then Except.error (-22) else Except.ok v
  | none =>
    match name_to_color buf with
    | Except.ok c => Except.ok c
    | Except.error _ => Except.error (-22)

/-- ili9488_color_store (src/ili9488-minimal.c lines 229-260): validate the
input with no side effect, then run the fill between mutex_lock and
mutex_unlock, returning the fill error verbatim or count on success.  The
count written back on success is the sysfs buffer length. -/
def ili9488_color_store (buf : List Char) (err : Err) (cur : Nat) :
    Int × St × Nat :=
  match parse_color buf with
  | Except.error e => (e, ⟨0, []⟩, cur)
  | Except.ok c =>
    let p := ili9488_fill_color_3bit err c cur ⟨0, []⟩
    let st : St := ⟨p.2.1.k, Ev.lock :: p.2.1.evs ++ [Ev.unlock]⟩
    (if p.1 = 0 then ((buf.length : Int)) else p.1, st, p.2.2)

end M3

namespace L9

/-- One spi_write call of the RGB driver: a single transport operation
carrying a whole buffer of 9-bit words at once. -/
def spi_write (err : Err) (ws : List (Bool × Nat)) (s : St) : Int × St :=
  let r := err s.k
  (r, ⟨s.k + 1, s.evs ++ [Ev.snd ws (decide (r = 0))]⟩)

/-- ili9488_cmd (src/ili9488.c lines 53-62): one packed command word. -/
def ili9488_cmd (err : Err) (c : Nat) (s : St) : Int × St :=
  spi_write err [(false, c % 256)] s

/-- ili9488_data (src/ili9488.c lines 65-69): one packed data word. -/
def ili9488_data (err : Err) (d : Nat) (s : St) : Int × St :=
  spi_write err [(true, d % 256)] s

/-- ili9488_data_bulk (src/ili9488.c lines 72-91): zero length sends
nothing, otherwise all words go out in one spi_write. -/
def ili9488_data_bulk (err : Err) (bs : List Nat) (s : St) : Int × St :=
  if bs.length = 0 then (0, s)
  else spi_write err (bs.map (fun b => (true, b % 256))) s

/-- ili9488_write_reg (src/ili9488.c lines 94-106): command first, abort on
its failure, then the parameter bytes when there are any. -/
def ili9488_write_reg (err : Err) (c : Nat) (ps : List Nat) (s : St) :
    Int × St :=
  let p := ili9488_cmd err c s
  if p.1 ≠ 0 then p
  else if ps.length ≠ 0 then ili9488_data_bulk err ps p.2
  else p

/-- ili9488_hw_reset (src/ili9488.c lines 109-118): drive the reset line
low, sleep 10, drive it high, sleep 120. -/
def ili9488_hw_reset (hasReset : Bool) (s : St) : St :=
  if hasReset then
    ⟨s.k, s.evs ++ [Ev.gpioReset 0, Ev.sleep 10, Ev.gpioReset 1, Ev.sleep 120]⟩
  else s

/-- ili9488_init_display (src/ili9488.c lines 121-160): hardware reset,
SWRESET, sleep 120, SLEEP OUT, sleep 5, COLMOD 0x55, sleep 10, MADCTL 0x48,
sleep 10, DISPLAY ON, sleep 50, NORMAL MODE ON, sleep 10.  Every ret value
is overwritten or dropped and the function always returns 0. -/
def ili9488_init_display (err : Err) (hasReset : Bool) (s : St) : Int × St :=
  let s := ili9488_hw_reset hasReset s
  let s := (ili9488_cmd err 0x01 s).2
  let s := msleep 120 s
  let s := (ili9488_cmd err 0x11 s).2
  let s := msleep 5 s
  let s := (ili9488_write_reg err 0x3A [0x55] s).2
  let s := msleep 10 s
  let s := (ili9488_write_reg err 0x36 [0x48] s).2
  let s := msleep 10 s
  let s := (ili9488_cmd err 0x29 s).2
  let s := msleep 50 s
  let s := (ili9488_cmd err 0x13 s).2
  let s := msleep 10 s
  (0, s)

/-- rgb888_to_rgb565 (src/ili9488.c lines 222-225). -/
def rgb888_to_rgb565 (r g b : Nat) : Nat :=
  (((r % 256) &&& 0xF8) <<< 8) ||| (((g % 256) &&& 0xFC) <<< 3) |||
    ((b % 256) >>> 3)

/-- One line buffer of ili9488_fill_screen (src/ili9488.c lines 200-205):
width pixels, each as the high then the low byte of the RGB565 color,
every byte a data word. -/
def line_words (width color : Nat) : List (Bool × Nat) :=
  (List.replicate width
    [(true, (color >>> 8) &&& 0xFF), (true, color &&& 0xFF)]).flatten

/-- Row loop of ili9488_fill_screen (src/ili9488.c lines 208-211): one
spi_write per line, breaking on the first error. -/
def lineLoop (err : Err) (lw : List (Bool × Nat)) : Nat → St → Int × St
  | 0, s => (0, s)
  | n + 1, s =>
    let p := spi_write err lw s
    if p.1 = 0 then lineLoop err lw n p.2 else p

/-- ili9488_fill_screen (src/ili9488.c lines 163-219): CASET with the four
bytes of 0..319, PASET with the four bytes of 0..479, RAMWR, then height
line writes of width pixels each, aborting on the first error. -/
def ili9488_fill_screen (err : Err) (width height color : Nat) (s : St) :
    Int × St :=
  let p := ili9488_write_reg err 0x2A [0x00, 0x00, 0x01, 0x3F] s
  if p.1 ≠ 0 then p else
  let p2 := ili9488_write_reg err 0x2B [0x00, 0x00, 0x01, 0xDF] p.2
  if p2.1 ≠ 0 then p2 else
  let p3 := ili9488_cmd err 0x2C p2.2
  if p3.1 ≠ 0 then p3 else
  lineLoop err (line_words width color) height p3.2

/-- fill_store (src/ili9488.c lines 228-252) after the sscanf parsing of
the three channel values: reject when the panel is off, convert to RGB565,
run the fill with no lock, drop its return value and report count. -/
def fill_store (err : Err) (power : Bool) (width height : Nat)
    (r g b : Nat) (count : Nat) (s : St) : Int × St :=
  if power then
    let color := rgb888_to_rgb565 r g b
    let p := ili9488_fill_screen err width height color s
    ((count : Int), p.2)
  else ((-19 : Int), s)

end L9

/-- All send events in the trace succeeded. -/
def allOkEvs : List Ev → Bool
  | [] => true
  | Ev.snd _ false :: _ => false
  | _ :: rest => allOkEvs rest

/-- After a failed send event nothing else happens: a failed send can only
be the last event of the trace. -/
def stopsAfterFail : List Ev → Bool
  | [] => true
  | Ev.snd _ false :: rest => rest.isEmpty
  | _ :: rest => stopsAfterFail rest

/-- The trace consists of send events only. -/
def onlySnd : List Ev → Bool
  | [] => true
  | Ev.snd _ _ :: rest => onlySnd rest
  | _ => false

/-- Lock-bracketing check: scanning with the current lock depth, every send
event must happen at positive depth and unlock never underflows. -/
def lockHeld : Nat → List Ev → Bool
  | _, [] => true
  | d, Ev.lock :: rest => lockHeld (d + 1) rest
  | 0, Ev.unlock :: _ => false
  | d + 1, Ev.unlock :: rest => lockHeld d rest
  | 0, Ev.snd _ _ :: _ => false
  | d + 1, Ev.snd _ _ :: rest => lockHeld (d + 1) rest
  | d, Ev.sleep _ :: rest => lockHeld d rest
  | d, Ev.gpioReset _ :: rest => lockHeld d rest

/-- A trace respects the lock discipline when every transport call happens
with the device mutex held. -/
def lockDiscipline (evs : List Ev) : Bool :=
  lockHeld 0 evs

/-- Command part of the initialization sequence required by the claim:
software reset then a delay of at least 150, sleep out then at least 120,
pixel format with one data byte then at least 10, memory access control
with one data byte then at least 10, inversion on then at least 10, normal
mode then at least 10, display on then at least 50, and nothing else. -/
def coreInitSeq : List Ev → Bool
  | Ev.snd [(false, 0x01)] _ :: Ev.sleep d1 ::
    Ev.snd [(false, 0x11)] _ :: Ev.sleep d2 ::
    Ev.snd [(false, 0x3A)] _ :: Ev.snd [(true, _)] _ :: Ev.sleep d3 ::
    Ev.snd [(false, 0x36)] _ :: Ev.snd [(true, _)] _ :: Ev.sleep d4 ::
    Ev.snd [(false, 0x21)] _ :: Ev.sleep d5 ::
    Ev.snd [(false, 0x13)] _ :: Ev.sleep d6 ::
    Ev.snd [(false, 0x29)] _ :: Ev.sleep d7 :: [] =>
      decide (150 ≤ d1) && decide (120 ≤ d2) && decide (10 ≤ d3) &&
      decide (10 ≤ d4) && decide (10 ≤ d5) && decide (10 ≤ d6) &&
      decide (50 ≤ d7)
  | _ => false

/-- Full initialization check of the claim: an optional hardware reset
holding the line down at least 20 then up at least 120, followed by the
command sequence. -/
def checkInitSeq : List Ev → Bool
  | Ev.gpioReset 0 :: Ev.sleep r1 :: Ev.gpioReset 1 :: Ev.sleep r2 :: rest =>
      decide (20 ≤ r1) && decide (120 ≤ r2) && coreInitSeq rest
  | rest => coreInitSeq rest

/-- Data words strictly after the first RAMWR command word of a wire
trace. -/
def dataWordsAfterRamwr (ws : List (Bool × Nat)) : List (Bool × Nat) :=
  ((ws.dropWhile (fun w => w != ((false : Bool), (0x2C : Nat)))).drop 1).filter
    (fun w => w.1)

/-- Case-insensitive prefix test between character lists, written from the
claim. -/
def prefixCI : List Char → List Char → Bool
  | [], _ => true
  | _ :: _, [] => false
  | a :: as, b :: bs => (M3.tolowerC a == M3.tolowerC b) && prefixCI as bs

/-- The color-name table in the order the claim fixes. -/
def colorTable : List (List Char × Nat) :=
  [(M3.blackName, 0), (M3.blueName, 1), (M3.greenName, 2), (M3.cyanName, 3),
   (M3.redName, 4), (M3.magentaName, 5), (M3.yellowName, 6), (M3.whiteName, 7)]

/-- Claim-side specification of name parsing: the first name in the table
of which the nonempty input is a case-insensitive prefix. -/
def nameToColorSpec (s : List Char) : Option Nat :=
  if s = [] then none
  else (colorTable.find? (fun p => prefixCI s p.1)).map (fun p => p.2)

/-- Forget the error value of an Except. -/
def exOk : Except Int Nat → Option Nat
  | Except.ok v => some v
  | Except.error _ => none

/-- C1: for every is_data flag and payload byte, decoding the native 9-bit
encoding produced by ili9488_pack9 and decoding the two-byte emulated
encoding produced by ili9488_send_9bit yield the identical
(is_data, payload) pair. -/
theorem codec_equivalence :
    ∀ (d : Bool) (p : Fin 256),
      decodeNative (L9.ili9488_pack9 (p : Nat) d) = (d, (p : Nat)) ∧
      decodeEmulated (M3.tx_bytes d (p : Nat)) = (d, (p : Nat)) := by
  decide

/-- C2: for every is_data flag and payload byte, the native wire word is
(is_data shifted into bit 8) or-ed with the payload, and the emulated pair
is byte0 = (is_data shifted left 7) or-ed with (payload shifted right 1),
byte1 = (payload and 1) shifted left 7, with the remaining bits of byte1
zero. -/
theorem encoder_formulas :
    ∀ (d : Bool) (p : Fin 256),
      L9.ili9488_pack9 (p : Nat) d = wireWordSpec d (p : Nat) ∧
      M3.tx_bytes d (p : Nat) = emuBytesSpec d (p : Nat) ∧
      (M3.tx_bytes d (p : Nat)).2 &&& 0x7F = 0 := by
  decide

theorem sendSeq_allOk (ws : List (Bool × Nat)) :
    ∀ s : St, M3.sendSeq allOk ws s =
      (0, ⟨s.k + ws.length,
           s.evs ++ ws.map (fun w => Ev.snd [(w.1, w.2 % 256)] true)⟩) := by
  induction ws with
  | nil => intro s; simp [M3.sendSeq]
  | cons w ws ih =>
    intro s
    simp [M3.sendSeq, M3.send9, allOk, ih, St.mk.injEq, List.append_assoc]
    omega

theorem pixLoop_allOk (c : Nat) :
    ∀ (n : Nat) (s : St), M3.pixLoop allOk c n s =
      (0, ⟨s.k + n, s.evs ++ List.replicate n (Ev.snd [(true, c % 256)] true)⟩) := by
  intro n
  induction n with
  | zero => intro s; simp [M3.pixLoop]
  | succ n ih =>
    intro s
    simp [M3.pixLoop, M3.send9, allOk, ih, List.replicate_succ, St.mk.injEq,
      List.append_assoc]
    omega

theorem wordsSent_append (a b : List Ev) :
    wordsSent (a ++ b) = wordsSent a ++ wordsSent b := by
  induction a with
  | nil => simp [wordsSent]
  | cons e rest ih =>
    cases e with
    | snd ws ok => cases ok <;> simp [wordsSent, ih, List.append_assoc]
    | sleep ms => simp [wordsSent, ih]
    | gpioReset v => simp [wordsSent, ih]
    | lock => simp [wordsSent, ih]
    | unlock => simp [wordsSent, ih]

theorem wordsSent_map (f : (Bool × Nat) → (Bool × Nat))
    (ws : List (Bool × Nat)) :
    wordsSent (ws.map (fun w => Ev.snd [f w] true)) = ws.map f := by
  induction ws with
  | nil => simp [wordsSent]
  | cons w ws ih => simp [wordsSent, ih]

theorem wordsSent_replicate (n : Nat) (w : Bool × Nat) :
    wordsSent (List.replicate n (Ev.snd [w] true)) = List.replicate n w := by
  induction n with
  | zero => simp [wordsSent]
  | succ n ih => simp [List.replicate_succ, wordsSent, ih]

/-- C3: with a transport on which every call succeeds, a full-screen fill
with color 0x04 emits exactly CASET with data 0x00 0x00 0x01 0x3F, PASET
with data 0x00 0x00 0x01 0xDF, RAMWR, then 153600 data words of payload
0x04 and nothing else, returns success and caches the color. -/
theorem fill_trace_red :
    ∀ cur : Nat,
      (M3.ili9488_fill_color_3bit allOk 4 cur ⟨0, []⟩).1 = 0 ∧
      wordsSent (M3.ili9488_fill_color_3bit allOk 4 cur ⟨0, []⟩).2.1.evs =
        [((false : Bool), (0x2A : Nat)), (true, 0x00), (true, 0x00),
         (true, 0x01), (true, 0x3F), (false, 0x2B), (true, 0x00),
         (true, 0x00), (true, 0x01), (true, 0xDF), (false, 0x2C)] ++
          List.replicate 153600 ((true : Bool), (0x04 : Nat)) ∧
      (M3.ili9488_fill_color_3bit allOk 4 cur ⟨0, []⟩).2.2 = 4 := by
  intro cur
  rw [M3.ili9488_fill_color_3bit]
  rw [sendSeq_allOk]
  simp only [reduceIte]
  rw [pixLoop_allOk]
  simp only [M3.out, reduceIte]
  refine ⟨trivial, ?_, trivial⟩
  rw [wordsSent_append, List.nil_append,
    wordsSent_map (fun w => (w.1, w.2 % 256)), wordsSent_replicate]
  have h320 : (320 * 480 : Nat) = 153600 := by norm_num
  rw [h320]
  rfl

theorem saf_of_allOk :
    ∀ evs : List Ev, allOkEvs evs = true → stopsAfterFail evs = true := by
  intro evs
  induction evs with
  | nil => intro _; rfl
  | cons e rest ih =>
    cases e with
    | snd ws ok =>
      cases ok with
      | false => intro h; simp [allOkEvs] at h
      | true => intro h; simp only [allOkEvs] at h; simp [stopsAfterFail, ih h]
    | sleep ms => intro h; simp only [allOkEvs] at h; simp [stopsAfterFail, ih h]
    | gpioReset v => intro h; simp only [allOkEvs] at h; simp [stopsAfterFail, ih h]
    | lock => intro h; simp only [allOkEvs] at h; simp [stopsAfterFail, ih h]
    | unlock => intro h; simp only [allOkEvs] at h; simp [stopsAfterFail, ih h]

theorem saf_append_fail :
    ∀ (evs : List Ev) (w : List (Bool × Nat)), allOkEvs evs = true →
      stopsAfterFail (evs ++ [Ev.snd w false]) = true := by
  intro evs
  induction evs with
  | nil => intro w _; simp [stopsAfterFail]
  | cons e rest ih =>
    intro w h
    cases e with
    | snd ws ok =>
      cases ok with
      | false => simp [allOkEvs] at h
      | true =>
        simp only [allOkEvs] at h
        simp [stopsAfterFail, ih w h]
    | sleep ms => simp only [allOkEvs] at h; simp [stopsAfterFail, ih w h]
    | gpioReset v => simp only [allOkEvs] at h; simp [stopsAfterFail, ih w h]
    | lock => simp only [allOkEvs] at h; simp [stopsAfterFail, ih w h]
    | unlock => simp only [allOkEvs] at h; simp [stopsAfterFail, ih w h]

theorem allOkEvs_append_ok :
    ∀ (evs : List Ev) (w : List (Bool × Nat)),
      allOkEvs (evs ++ [Ev.snd w true]) = allOkEvs evs := by
  intro evs
  induction evs with
  | nil => intro w; rfl
  | cons e rest ih =>
    intro w
    cases e with
    | snd ws ok => cases ok <;> simp [allOkEvs, ih]
    | sleep ms => simp [allOkEvs, ih]
    | gpioReset v => simp [allOkEvs, ih]
    | lock => simp [allOkEvs, ih]
    | unlock => simp [allOkEvs, ih]

theorem sendSeq_stops (err : Err) :
    ∀ (ws : List (Bool × Nat)) (s : St), allOkEvs s.evs = true →
      ((M3.sendSeq err ws s).1 = 0 →
        allOkEvs (M3.sendSeq err ws s).2.evs = true) ∧
      ((M3.sendSeq err ws s).1 ≠ 0 →
        stopsAfterFail (M3.sendSeq err ws s).2.evs = true) := by
  intro ws
  induction ws with
  | nil =>
    intro s h
    refine ⟨fun _ => h, fun hr => absurd rfl hr⟩
  | cons w ws ih =>
    intro s h
    by_cases hk : err s.k = 0
    · have hok : allOkEvs (s.evs ++ [Ev.snd [(w.1, w.2 % 256)] true]) = true := by
        rw [allOkEvs_append_ok]; exact h
      have hd : decide (err s.k = 0) = true := by simp [hk]
      have hstep : M3.sendSeq err (w :: ws) s =
          M3.sendSeq err ws ⟨s.k + 1, s.evs ++ [Ev.snd [(w.1, w.2 % 256)] true]⟩ := by
        simp only [M3.sendSeq, M3.send9, hd]
        rw [if_pos hk]
      rw [hstep]
      exact ih ⟨s.k + 1, s.evs ++ [Ev.snd [(w.1, w.2 % 256)] true]⟩ hok
    · have hd : decide (err s.k = 0) = false := by simp [hk]
      have hstep : M3.sendSeq err (w :: ws) s =
          (err s.k, ⟨s.k + 1, s.evs ++ [Ev.snd [(w.1, w.2 % 256)] false]⟩) := by
        simp only [M3.sendSeq, M3.send9, hd]
        rw [if_neg hk]
      rw [hstep]
      exact ⟨fun hr => absurd hr hk,
        fun _ => saf_append_fail s.evs [(w.1, w.2 % 256)] h⟩

theorem pixLoop_stops (err : Err) (color : Nat) :
    ∀ (n : Nat) (s : St), allOkEvs s.evs = true →
      ((M3.pixLoop err color n s).1 = 0 →
        allOkEvs (M3.pixLoop err color n s).2.evs = true) ∧
      ((M3.pixLoop err color n s).1 ≠ 0 →
        stopsAfterFail (M3.pixLoop err color n s).2.evs = true) := by
  intro n
  induction n with
  | zero =>
    intro s h
    refine ⟨fun _ => h, fun hr => absurd rfl hr⟩
  | succ n ih =>
    intro s h
    by_cases hk : err s.k = 0
    · have hok : allOkEvs (s.evs ++ [Ev.snd [(true, color % 256)] true]) = true := by
        rw [allOkEvs_append_ok]; exact h
      have hd : decide (err s.k = 0) = true := by simp [hk]
      have hstep : M3.pixLoop err color (n + 1) s =
          M3.pixLoop err color n
            ⟨s.k + 1, s.evs ++ [Ev.snd [(true, color % 256)] true]⟩ := by
        simp only [M3.pixLoop, M3.send9, hd]
        rw [if_pos hk]
      rw [hstep]
      exact ih ⟨s.k + 1, s.evs ++ [Ev.snd [(true, color % 256)] true]⟩ hok
    · have hd : decide (err s.k = 0) = false := by simp [hk]
      have hstep : M3.pixLoop err color (n + 1) s =
          (err s.k, ⟨s.k + 1, s.evs ++ [Ev.snd [(true, color % 256)] false]⟩) := by
        simp only [M3.pixLoop, M3.send9, hd]
        rw [if_neg hk]
      rw [hstep]
      exact ⟨fun hr => absurd hr hk,
        fun _ => saf_append_fail s.evs [(true, color % 256)] h⟩

theorem fill_props (err : Err) (color cur : Nat) (s : St)
    (h : allOkEvs s.evs = true) :
    ((M3.ili9488_fill_color_3bit err color cur s).1 = 0 →
      (M3.ili9488_fill_color_3bit err color cur s).2.2 = color) ∧
    ((M3.ili9488_fill_color_3bit err color cur s).1 ≠ 0 →
      (M3.ili9488_fill_color_3bit err color cur s).2.2 = cur) ∧
    stopsAfterFail (M3.ili9488_fill_color_3bit err color cur s).2.1.evs = true := by
  have hseq := sendSeq_stops err M3.hdrWords s h
  simp only [M3.ili9488_fill_color_3bit]
  by_cases h1 : (M3.sendSeq err M3.hdrWords s).1 = 0
  · have hok := hseq.1 h1
    have hpix := pixLoop_stops err color (320 * 480)
      (M3.sendSeq err M3.hdrWords s).2 hok
    rw [if_pos h1]
    by_cases h2 :
        (M3.pixLoop err color (320 * 480) (M3.sendSeq err M3.hdrWords s).2).1 = 0
    · rw [M3.out, if_pos h2]
      exact ⟨fun _ => rfl, fun hr => absurd h2 hr,
        saf_of_allOk _ (hpix.1 h2)⟩
    · rw [M3.out, if_neg h2]
      exact ⟨fun hr => absurd hr h2, fun _ => rfl, hpix.2 h2⟩
  · rw [if_neg h1, M3.out, if_neg h1]
    exact ⟨fun hr => absurd hr h1, fun _ => rfl, hseq.2 h1⟩

/-- C5 (amended): a transport failure during the 3-bit fill stops the word
stream at the failed call, leaves the cached current_color at its pre-call
value, and the minimal driver sysfs write returns the error unchanged;
current_color becomes the new color only when every call succeeded.  The
RGB driver sysfs fill path, in contrast, discards the error (see the
counterexample). -/
theorem fill_error_handling :
    ∀ (err : Err) (color cur : Nat),
      ((M3.ili9488_fill_color_3bit err color cur ⟨0, []⟩).1 = 0 →
        (M3.ili9488_fill_color_3bit err color cur ⟨0, []⟩).2.2 = color) ∧
      ((M3.ili9488_fill_color_3bit err color cur ⟨0, []⟩).1 ≠ 0 →
        (M3.ili9488_fill_color_3bit err color cur ⟨0, []⟩).2.2 = cur) ∧
      stopsAfterFail
        (M3.ili9488_fill_color_3bit err color cur ⟨0, []⟩).2.1.evs = true ∧
      ((M3.ili9488_fill_color_3bit err 4 cur ⟨0, []⟩).1 ≠ 0 →
        (M3.ili9488_color_store ['4'] err cur).1 =
          (M3.ili9488_fill_color_3bit err 4 cur ⟨0, []⟩).1 ∧
        (M3.ili9488_color_store ['4'] err cur).2.2 = cur) := by
  intro err color cur
  have hgen := fill_props err color cur ⟨0, []⟩ rfl
  have hgen4 := fill_props err 4 cur ⟨0, []⟩ rfl
  refine ⟨hgen.1, hgen.2.1, hgen.2.2, fun hr => ?_⟩
  have hpc : M3.parse_color ['4'] = Except.ok 4 := rfl
  constructor
  · simp only [M3.ili9488_color_store, hpc, if_neg hr]
  · have h22 : (M3.ili9488_color_store ['4'] err cur).2.2 =
        (M3.ili9488_fill_color_3bit err 4 cur ⟨0, []⟩).2.2 := by
      simp only [M3.ili9488_color_store, hpc]
    rw [h22]
    exact hgen4.2.1 hr

/-- C5 witness: with a transport failing from the first call, the fill
leaves current_color at its pre-call value 0 and the sysfs write returns
the transport error -5. -/
theorem fill_error_handling_witness :
    (M3.ili9488_fill_color_3bit errFail 4 0 ⟨0, []⟩).2.2 = 0 ∧
    (M3.ili9488_color_store ['4'] errFail 0).1 = -5 := by
  have h := fill_error_handling errFail 4 0
  have hr : (M3.ili9488_fill_color_3bit errFail 4 0 ⟨0, []⟩).1 ≠ 0 := by decide
  refine ⟨h.2.1 hr, ?_⟩
  rw [(h.2.2.2 hr).1]
  decide

/-- C5 counterexample: on the RGB driver, with every transport call
failing with -5, the sysfs fill path makes a failed transport call yet
still reports success by returning count (here 5), so the transport error
is not returned to the sysfs caller. -/
theorem fill_store_discards_error :
    L9.fill_store errFail true 320 480 255 0 0 5 ⟨0, []⟩ =
      (5, ⟨1, [Ev.snd [((false : Bool), (0x2A : Nat))] false]⟩) ∧
    ((5 : Int) ≠ -5) := by
  decide

/-- C4 evaluation: on a 1 by 1 configured screen with an always-successful
transport, ili9488_fill_screen succeeds, emits the hardcoded 320 by 480
window (CASET 0..0x13F, PASET 0..0x1DF) and then only 2 data words (one
pixel), not the 153600 pixels the window declares. -/
theorem fill_screen_window_mismatch :
    (L9.ili9488_fill_screen allOk 1 1 0xF800 ⟨0, []⟩).1 = 0 ∧
    wordsSent (L9.ili9488_fill_screen allOk 1 1 0xF800 ⟨0, []⟩).2.evs =
      [((false : Bool), (0x2A : Nat)), (true, 0x00), (true, 0x00),
       (true, 0x01), (true, 0x3F), (false, 0x2B), (true, 0x00), (true, 0x00),
       (true, 0x01), (true, 0xDF), (false, 0x2C), (true, 0xF8), (true, 0x00)] ∧
    (dataWordsAfterRamwr
      (wordsSent (L9.ili9488_fill_screen allOk 1 1 0xF800 ⟨0, []⟩).2.evs)).length
      = 2 ∧
    (2 : Nat) ≠ 153600 * 2 := by
  decide

/-- C6 (amended): the 3-bit driver initialization emits, after the
hardware reset holding the line low 20 then high 120, exactly software
reset, sleep out, pixel format with one data byte, memory access control
with one data byte, inversion on, normal mode on and display on, with
settle delays 150, 120, 10, 10, 10, 10 and 50, meeting every minimum of
the claim.  The RGB driver initialization does not (see the
counterexample). -/
theorem init3_sequence :
    (M3.ili9488_3bit_init allOk true ⟨0, []⟩).evs =
      [Ev.gpioReset 0, Ev.sleep 20, Ev.gpioReset 1, Ev.sleep 120,
       Ev.snd [(false, 0x01)] true, Ev.sleep 150,
       Ev.snd [(false, 0x11)] true, Ev.sleep 120,
       Ev.snd [(false, 0x3A)] true, Ev.snd [(true, 0x01)] true, Ev.sleep 10,
       Ev.snd [(false, 0x36)] true, Ev.snd [(true, 0x48)] true, Ev.sleep 10,
       Ev.snd [(false, 0x21)] true, Ev.sleep 10,
       Ev.snd [(false, 0x13)] true, Ev.sleep 10,
       Ev.snd [(false, 0x29)] true, Ev.sleep 50] ∧
    checkInitSeq (M3.ili9488_3bit_init allOk true ⟨0, []⟩).evs = true := by
  decide

/-- C6 counterexample: the RGB driver initialization violates the claimed
sequence: the reset line is held low only 10 units, the software reset
delay is 120, the sleep out delay is 5, there is no inversion on, and
display on comes before normal mode on. -/
theorem init_display_sequence_differs :
    checkInitSeq (L9.ili9488_init_display allOk true ⟨0, []⟩).2.evs = false := by
  decide

/-- C7 evaluation: with a transport failing from the very first command,
the 3-bit initialization still attempts all 9 sends including the final
display-on, and the RGB initialization attempts 6 sends and returns 0, so
neither stops at the failed command nor surfaces the failure. -/
theorem init_failures_ignored :
    (M3.ili9488_3bit_init errFail true ⟨0, []⟩).k = 9 ∧
    Ev.snd [((false : Bool), (0x29 : Nat))] false ∈
      (M3.ili9488_3bit_init errFail true ⟨0, []⟩).evs ∧
    (L9.ili9488_init_display errFail true ⟨0, []⟩).1 = 0 ∧
    (L9.ili9488_init_display errFail true ⟨0, []⟩).2.k = 6 := by
  decide

/-- C8: a sysfs color write whose value parses numerically above 7, or
parses as no known color name, returns -EINVAL with no transport call made
and current_color unchanged. -/
theorem invalid_color_rejected :
    ∀ (buf : List Char) (err : Err) (cur : Nat),
      ((∃ v, M3.kstrtoul buf = some v ∧ 7 < v) ∨
        (M3.kstrtoul buf = none ∧
          ∀ c, M3.name_to_color buf ≠ Except.ok c)) →
      M3.ili9488_color_store buf err cur = (-22, ⟨0, []⟩, cur) := by
  intro buf err cur h
  have hp : M3.parse_color buf = Except.error (-22) := by
    rcases h with ⟨v, hk, hv⟩ | ⟨hk, hn⟩
    · simp [M3.parse_color, hk, hv]
    · cases hc : M3.name_to_color buf with
      | ok c => exact absurd hc (hn c)
      | error e => simp [M3.parse_color, hk, hc]
  simp [M3.ili9488_color_store, hp]

/-- C8 witness: the numeric input 9 is rejected with -EINVAL, no wire
traffic and an unchanged current_color. -/
theorem invalid_color_rejected_witness :
    M3.ili9488_color_store ['9'] allOk 0 = (-22, ⟨0, []⟩, 0) :=
  invalid_color_rejected ['9'] allOk 0 (Or.inl ⟨9, by decide, by decide⟩)

theorem onlySnd_append (a b : List Ev) :
    onlySnd (a ++ b) = (onlySnd a && onlySnd b) := by
  induction a with
  | nil => simp [onlySnd]
  | cons e rest ih =>
    cases e with
    | snd ws ok => simp [onlySnd, ih]
    | sleep ms => simp [onlySnd]
    | gpioReset v => simp [onlySnd]
    | lock => simp [onlySnd]
    | unlock => simp [onlySnd]

theorem sendSeq_onlySnd (err : Err) :
    ∀ (ws : List (Bool × Nat)) (s : St), onlySnd s.evs = true →
      onlySnd (M3.sendSeq err ws s).2.evs = true := by
  intro ws
  induction ws with
  | nil => intro s h; exact h
  | cons w ws ih =>
    intro s h
    by_cases hk : err s.k = 0
    · have happ : onlySnd (s.evs ++ [Ev.snd [(w.1, w.2 % 256)] true]) = true := by
        rw [onlySnd_append, h]; rfl
      have hd : decide (err s.k = 0) = true := by simp [hk]
      have hstep : M3.sendSeq err (w :: ws) s =
          M3.sendSeq err ws ⟨s.k + 1, s.evs ++ [Ev.snd [(w.1, w.2 % 256)] true]⟩ := by
        simp only [M3.sendSeq, M3.send9, hd]
        rw [if_pos hk]
      rw [hstep]
      exact ih _ happ
    · have happ : onlySnd (s.evs ++ [Ev.snd [(w.1, w.2 % 256)] false]) = true := by
        rw [onlySnd_append, h]; rfl
      have hd : decide (err s.k = 0) = false := by simp [hk]
      have hstep : M3.sendSeq err (w :: ws) s =
          (err s.k, ⟨s.k + 1, s.evs ++ [Ev.snd [(w.1, w.2 % 256)] false]⟩) := by
        simp only [M3.sendSeq, M3.send9, hd]
        rw [if_neg hk]
      rw [hstep]
      exact happ

theorem pixLoop_onlySnd (err : Err) (color : Nat) :
    ∀ (n : Nat) (s : St), onlySnd s.evs = true →
      onlySnd (M3.pixLoop err color n s).2.evs = true := by
  intro n
  induction n with
  | zero => intro s h; exact h
  | succ n ih =>
    intro s h
    by_cases hk : err s.k = 0
    · have happ : onlySnd (s.evs ++ [Ev.snd [(true, color % 256)] true]) = true := by
        rw [onlySnd_append, h]; rfl
      have hd : decide (err s.k = 0) = true := by simp [hk]
      have hstep : M3.pixLoop err color (n + 1) s =
          M3.pixLoop err color n
            ⟨s.k + 1, s.evs ++ [Ev.snd [(true, color % 256)] true]⟩ := by
        simp only [M3.pixLoop, M3.send9, hd]
        rw [if_pos hk]
      rw [hstep]
      exact ih _ happ
    · have happ : onlySnd (s.evs ++ [Ev.snd [(true, color % 256)] false]) = true := by
        rw [onlySnd_append, h]; rfl
      have hd : decide (err s.k = 0) = false := by simp [hk]
      have hstep : M3.pixLoop err color (n + 1) s =
          (err s.k, ⟨s.k + 1, s.evs ++ [Ev.snd [(true, color % 256)] false]⟩) := by
        simp only [M3.pixLoop, M3.send9, hd]
        rw [if_neg hk]
      rw [hstep]
      exact happ

theorem fill_onlySnd (err : Err) (color cur : Nat) :
    onlySnd (M3.ili9488_fill_color_3bit err color cur ⟨0, []⟩).2.1.evs = true := by
  simp only [M3.ili9488_fill_color_3bit]
  have hs : onlySnd (M3.sendSeq err M3.hdrWords ⟨0, []⟩).2.evs = true :=
    sendSeq_onlySnd err M3.hdrWords ⟨0, []⟩ rfl
  by_cases h1 : (M3.sendSeq err M3.hdrWords ⟨0, []⟩).1 = 0
  · rw [if_pos h1]
    have hp := pixLoop_onlySnd err color (320 * 480)
      (M3.sendSeq err M3.hdrWords ⟨0, []⟩).2 hs
    by_cases h2 : (M3.pixLoop err color (320 * 480)
        (M3.sendSeq err M3.hdrWords ⟨0, []⟩).2).1 = 0
    · rw [M3.out, if_pos h2]; exact hp
    · rw [M3.out, if_neg h2]; exact hp
  · rw [if_neg h1, M3.out, if_neg h1]
    exact hs

theorem lockHeld_lock (d : Nat) (rest : List Ev) :
    lockHeld d (Ev.lock :: rest) = lockHeld (d + 1) rest := by
  cases d <;> rfl

theorem lockHeld_onlySnd :
    ∀ (evs : List Ev) (d : Nat) (rest : List Ev), onlySnd evs = true →
      lockHeld (d + 1) (evs ++ rest) = lockHeld (d + 1) rest := by
  intro evs
  induction evs with
  | nil => intro d rest _; rfl
  | cons e tail ih =>
    intro d rest h
    cases e with
    | snd ws ok =>
      simp only [onlySnd] at h
      simp only [List.cons_append, lockHeld]
      exact ih d rest h
    | sleep ms => simp [onlySnd] at h
    | gpioReset v => simp [onlySnd] at h
    | lock => simp [onlySnd] at h
    | unlock => simp [onlySnd] at h

/-- C9 (amended): every run of the 3-bit driver sysfs color write keeps
all its transport calls between the mutex lock and unlock, so its command
stream cannot interleave with another caller that respects the same lock.
The RGB driver entry points take no lock at all (see the
counterexample). -/
theorem color_store_lock_discipline :
    ∀ (buf : List Char) (err : Err) (cur : Nat),
      lockDiscipline (M3.ili9488_color_store buf err cur).2.1.evs = true := by
  intro buf err cur
  cases hp : M3.parse_color buf with
  | error e => simp [M3.ili9488_color_store, hp, lockDiscipline, lockHeld]
  | ok c =>
    have hf := fill_onlySnd err c cur
    simp only [M3.ili9488_color_store, hp]
    show lockHeld 0 (Ev.lock ::
      ((M3.ili9488_fill_color_3bit err c cur ⟨0, []⟩).2.1.evs ++ [Ev.unlock])) = true
    rw [lockHeld_lock, lockHeld_onlySnd _ 0 [Ev.unlock] hf]
    rfl

/-- C9 counterexample: the RGB driver sysfs fill makes transport calls
with no lock event at all, violating the lock discipline. -/
theorem fill_store_without_lock :
    lockDiscipline
      (L9.fill_store allOk true 1 1 255 0 0 5 ⟨0, []⟩).2.evs = false := by
  decide

theorem strncaseeq_eq_prefixCI :
    ∀ (s nm : List Char), M3.strncaseeq s nm s.length = prefixCI s nm := by
  intro s
  induction s with
  | nil => intro nm; cases nm <;> simp [M3.strncaseeq, prefixCI]
  | cons a as ih =>
    intro nm
    cases nm with
    | nil => simp [M3.strncaseeq, prefixCI]
    | cons b bs => simp [M3.strncaseeq, prefixCI, ih]

/-- C10: name_to_color returns the first color of the fixed table black,
blue, green, cyan, red, magenta, yellow, white of which the nonempty input
is a case-insensitive prefix, so the ambiguous prefixes b and bl map to
black, while an empty input or a string matching no name is rejected with
an error. -/
theorem name_prefix_semantics :
    (∀ s : List Char, exOk (M3.name_to_color s) = nameToColorSpec s) ∧
    M3.name_to_color ['b'] = Except.ok 0 ∧
    M3.name_to_color ['b', 'l'] = Except.ok 0 ∧
    M3.name_to_color [] = Except.error (-22) ∧
    M3.name_to_color ['p', 'i', 'n', 'k'] = Except.error (-2) := by
  refine ⟨?_, by rfl, by rfl, by rfl, by rfl⟩
  intro s
  cases s with
  | nil => simp [M3.name_to_color, nameToColorSpec, exOk]
  | cons a as =>
    simp only [M3.name_to_color]
    simp only [strncaseeq_eq_prefixCI]
    simp only [nameToColorSpec, colorTable]
    by_cases h1 : prefixCI (a :: as) M3.blackName = true
    · simp [List.find?, h1, exOk]
    · by_cases h2 : prefixCI (a :: as) M3.blueName = true
      · simp [List.find?, h1, h2, exOk]
      · by_cases h3 : prefixCI (a :: as) M3.greenName = true
        · simp [List.find?, h1, h2, h3, exOk]
        · by_cases h4 : prefixCI (a :: as) M3.cyanName = true
          · simp [List.find?, h1, h2, h3, h4, exOk]
          · by_cases h5 : prefixCI (a :: as) M3.redName = true
            · simp [List.find?, h1, h2, h3, h4, h5, exOk]
            · by_cases h6 : prefixCI (a :: as) M3.magentaName = true
              · simp [List.find?, h1, h2, h3, h4, h5, h6, exOk]
              · by_cases h7 : prefixCI (a :: as) M3.yellowName = true
                · simp [List.find?, h1, h2, h3, h4, h5, h6, h7, exOk]
                · by_cases h8 : prefixCI (a :: as) M3.whiteName = true
                  · simp [List.find?, h1, h2, h3, h4, h5, h6, h7, h8, exOk]
                  · simp [List.find?, h1, h2, h3, h4, h5, h6, h7, h8, exOk]

end ILI9488
